import Mathlib

/-!
Shallow embedding of `src/azaan/azaan_app.py` (class `AzaanApp`).

Modelling conventions:
* Timestamps are naive local wall-clock instants measured in whole seconds
  since an arbitrary epoch (`Nat`).  Python `datetime` carries microseconds;
  every comparison and subtraction the embedded code performs is between a
  whole-minute event instant and `now`, so one-second granularity preserves
  all orderings, signs and the minute-string comparisons used by the code.
  `t / 86400` is the calendar date (`datetime.date`), `t % 86400` the
  time-of-day in seconds (`datetime.time`).
* Durations (`timedelta`) are `Int` differences of such timestamps.
* `self.prayer_times` is `{}` at construction and afterwards only ever
  assigned a complete five-key dict literal, so it is modelled as
  `Option PrayerTimes` (`none` = the falsy empty dict).
* `self.played_prayers` is a Python `set` only ever grown by `add`; it is
  modelled as a duplicate-free `List Prayer` grown by append-if-absent.
* External effects (the HTTP response of the Aladhan API, the outcome of the
  `afplay` subprocess) are passed in as explicit inputs; `print` output is
  ignored except where an error report is part of a claim, in which case
  `play_azaan` returns its log lines.
-/

namespace AzaanSpec

/-- The five prayer names, in the fixed display/dict-literal order used by
`self.prayer_times` (Python dicts preserve insertion order). -/
inductive Prayer
  | Fajr
  | Dhuhr
  | Asr
  | Maghrib
  | Isha
deriving DecidableEq

/-- The dict iteration order of `self.prayer_times.items()`. -/
def prayerOrder : List Prayer :=
  [Prayer.Fajr, Prayer.Dhuhr, Prayer.Asr, Prayer.Maghrib, Prayer.Isha]

/-- A parsed `datetime.time` with minute precision, as produced by
`datetime.strptime(time_str, "%H:%M").time()`. -/
structure TimeOfDay where
  hour : Nat
  minute : Nat
deriving DecidableEq

/-- Seconds after midnight of a parsed time of day. -/
def TimeOfDay.toSec (t : TimeOfDay) : Nat :=
  t.hour * 3600 + t.minute * 60

/-- Numeric value of a decimal digit character. -/
def digitVal (c : Char) : Nat := c.toNat - 48

/-- One digit of `%H` or `%M`. -/
def parse1 (a : Char) : Option Nat :=
  if a.isDigit then some (digitVal a) else none

/-- Two digits of `%H` or `%M`. -/
def parse2 (a b : Char) : Option Nat :=
  if a.isDigit ∧ b.isDigit then some (digitVal a * 10 + digitVal b) else none

/-- Shape analysis of `strptime(s, "%H:%M")`: one or two digits, a literal
colon, one or two digits, and nothing else (`strptime` raises on unconverted
trailing data).  Range validation happens in `parseHHMM`. -/
def parseHHMMAux : List Char → Option (Nat × Nat)
  | [a, ':', b] => do pure (← parse1 a, ← parse1 b)
  | [a, ':', b, c] => do pure (← parse1 a, ← parse2 b c)
  | [a, b, ':', c] => do pure (← parse2 a b, ← parse1 c)
  | [a, b, ':', c, d] => do pure (← parse2 a b, ← parse2 c d)
  | _ => none

/-- `datetime.strptime(s, "%H:%M").time()`: `some` iff `strptime` succeeds.
The regex `strptime` compiles for `%H` is `2[0-3]|[0-1]\d|\d` and for `%M`
is `[0-5]\d|\d`; on the shapes accepted by `parseHHMMAux` that is exactly a
range check (an out-of-range two-digit field makes the regex backtrack to a
one-digit match, after which the literal colon or end-of-input fails). -/
def parseHHMM (s : String) : Option TimeOfDay :=
  match parseHHMMAux s.data with
  | some (h, m) => if h ≤ 23 ∧ m ≤ 59 then some ⟨h, m⟩ else none
  | none => none

/-- Zero-padded two-digit decimal field of `strftime`. -/
def fmt2 (n : Nat) : String :=
  if n < 10 then "0" ++ Nat.repr n else Nat.repr n

/-- `strftime("%H:%M")` of an instant, given its seconds-after-midnight. -/
def fmtHHMM (secOfDay : Nat) : String :=
  fmt2 (secOfDay / 3600) ++ ":" ++ fmt2 (secOfDay % 3600 / 60)

/-- The five raw "HH:MM" strings stored in `self.prayer_times` (the code
stores the supplier strings verbatim, unparsed). -/
structure PrayerTimes where
  fajr : String
  dhuhr : String
  asr : String
  maghrib : String
  isha : String
deriving DecidableEq

/-- Dict lookup `self.prayer_times[p]`. -/
def PrayerTimes.get : PrayerTimes → Prayer → String
  | t, Prayer.Fajr => t.fajr
  | t, Prayer.Dhuhr => t.dhuhr
  | t, Prayer.Asr => t.asr
  | t, Prayer.Maghrib => t.maghrib
  | t, Prayer.Isha => t.isha

/-- The mutable fields of an `AzaanApp` instance that the embedded methods
touch. -/
structure AppState where
  prayer_times : Option PrayerTimes
  prayer_date : Option String
  played_prayers : List Prayer
  mock_time : Option Nat
  mock_start_time : Option Nat
deriving DecidableEq

/-- `AzaanApp.__init__(mock_time)`: empty table, empty fired set, and
`mock_start_time = datetime.now() if mock_time else None`, captured once at
construction (`constructionNow` is the real clock at that instant). -/
def mkApp (mock_time : Option Nat) (constructionNow : Nat) : AppState :=
  { prayer_times := none
    prayer_date := none
    played_prayers := []
    mock_time := mock_time
    mock_start_time := if mock_time.isSome then some constructionNow else none }

/-- `get_current_time`: in mock mode returns
`self.mock_time + (datetime.now() - self.mock_start_time)`, otherwise the
real clock.  `realNow` is `datetime.now()` at the call. -/
def get_current_time (st : AppState) (realNow : Nat) : Nat :=
  match st.mock_time, st.mock_start_time with
  | some mt, some ms => mt + (realNow - ms)
  | _, _ => realNow

/-- The JSON body of an Aladhan response, as far as the code reads it:
`data["data"]["timings"][name]` for the five names (a `none` field is a
missing key, i.e. a `KeyError`) and `data["data"]["date"]["readable"]`. -/
structure PayloadJson where
  fajr : Option String
  dhuhr : Option String
  asr : Option String
  maghrib : Option String
  isha : Option String
  dateReadable : Option String
deriving DecidableEq

/-- Outcome of `requests.get`: a transport-level exception, or a reply with
a status code and a body.  A `none` body stands for any failure between
`response.json()` and reaching the individual timing keys (malformed JSON,
or a missing `data`/`timings` object) — all are exceptions the `except`
clause catches before any field of `self` is assigned. -/
inductive FetchResp
  | netError
  | reply (status_code : Nat) (json : Option PayloadJson)
deriving DecidableEq

/-- `fetch_prayer_times`, with the Python statement order made explicit:
the five timing keys are read while building the dict literal, then
`self.prayer_times` is assigned, then the date is read and
`self.prayer_date` assigned.  An exception at any read is caught and the
method returns `False`; crucially a `KeyError` on the date happens *after*
`self.prayer_times` was already overwritten. -/
def fetch_prayer_times (st : AppState) (resp : FetchResp) : AppState × Bool :=
  match resp with
  | FetchResp.netError => (st, false)
  | FetchResp.reply code json =>
    if code = 200 then
      match json with
      | none => (st, false)
      | some pj =>
        match pj.fajr, pj.dhuhr, pj.asr, pj.maghrib, pj.isha with
        | some f, some d, some a, some m, some i =>
          let st1 := { st with prayer_times := some ⟨f, d, a, m, i⟩ }
          match pj.dateReadable with
          | none => (st1, false)
          | some dr => ({ st1 with prayer_date := some dr }, true)
        | _, _, _, _, _ => (st, false)
    else (st, false)

/-- Outcome of the `afplay` subprocess inside `play_azaan`. -/
inductive PlayResult
  | success
  | calledProcessError
  | otherError
deriving DecidableEq

/-- The announcement line printed before the subprocess call. -/
def playingMsg (p : Prayer) : String :=
  match p with
  | Prayer.Fajr => "Time for Fajr prayer! Playing azaan..."
  | Prayer.Dhuhr => "Time for Dhuhr prayer! Playing azaan..."
  | Prayer.Asr => "Time for Asr prayer! Playing azaan..."
  | Prayer.Maghrib => "Time for Maghrib prayer! Playing azaan..."
  | Prayer.Isha => "Time for Isha prayer! Playing azaan..."

/-- `play_azaan`: runs the subprocess and catches `CalledProcessError` and
every other `Exception`, printing an error report; it never re-raises.  The
returned value is the list of lines printed. -/
def play_azaan (p : Prayer) (r : PlayResult) : List String :=
  match r with
  | PlayResult.success => [playingMsg p, "Azaan completed."]
  | PlayResult.calledProcessError => [playingMsg p, "Error playing azaan: CalledProcessError"]
  | PlayResult.otherError => [playingMsg p, "Error playing azaan: Exception"]

/-- The `for prayer, time_str in self.prayer_times.items()` loop body of
`check_prayer_times_mock`: on a minute-string match of a prayer not yet in
`played_prayers`, add it to the set and then call `play_azaan`.  Returns the
final state, the prayers for which `play_azaan` was invoked (in order), and
the accumulated log lines.  `out` gives each invocation's subprocess
outcome. -/
def checkLoop (nowStr : String) (tbl : PrayerTimes) (out : Prayer → PlayResult) :
    AppState → List Prayer → AppState × List Prayer × List String
  | st, [] => (st, [], [])
  | st, p :: rest =>
    if nowStr = tbl.get p ∧ p ∉ st.played_prayers then
      let st1 := { st with played_prayers := st.played_prayers ++ [p] }
      let logs := play_azaan p (out p)
      let r := checkLoop nowStr tbl out st1 rest
      (r.1, p :: r.2.1, logs ++ r.2.2)
    else
      checkLoop nowStr tbl out st rest

/-- `check_prayer_times_mock`: formats the current (possibly mocked) time as
"HH:MM" and fires every still-pending prayer whose stored string equals it.
Iterating over the empty dict does nothing. -/
def check_prayer_times_mock (st : AppState) (realNow : Nat) (out : Prayer → PlayResult) :
    AppState × List Prayer × List String :=
  match st.prayer_times with
  | none => (st, [], [])
  | some tbl =>
    let now := get_current_time st realNow
    checkLoop (fmtHHMM (now % 86400)) tbl out st prayerOrder

/-- A sequence of `check_prayer_times_mock` ticks, each with its own real
clock reading and subprocess outcomes; collects every `play_azaan`
invocation across the ticks. -/
def checkMany : AppState → List (Nat × (Prayer → PlayResult)) → AppState × List Prayer
  | st, [] => (st, [])
  | st, (r, out) :: rest =>
    let s1 := check_prayer_times_mock st r out
    let s2 := checkMany s1.1 rest
    (s2.1, s1.2.1 ++ s2.2)

/-- The only exceptions the embedded methods can raise. -/
inductive PyError
  | valueError
  | scheduleValueError
deriving DecidableEq

/-- The `for prayer, time_str in self.prayer_times.items()` loop of
`get_next_prayer`: parse each stored string (`strptime` raises `ValueError`
on a malformed one) and combine it with today's date, `day * 86400`. -/
def buildEntries (tbl : PrayerTimes) (day : Nat) : List Prayer → Except PyError (List (Prayer × Nat))
  | [] => Except.ok []
  | p :: rest =>
    match parseHHMM (tbl.get p) with
    | none => Except.error PyError.valueError
    | some t => do
      let es ← buildEntries tbl day rest
      pure ((p, day * 86400 + t.toSec) :: es)

/-- The sort key of `prayer_list.sort(key=lambda x: x[1])`: compare the
combined datetimes. -/
def entryLE (a b : Prayer × Nat) : Prop := a.2 ≤ b.2

instance : DecidableRel entryLE := fun a b => Nat.decLe a.2 b.2

instance : IsTotal (Prayer × Nat) entryLE := ⟨fun a b => Nat.le_total a.2 b.2⟩

instance : IsTrans (Prayer × Nat) entryLE := ⟨fun _ _ _ => Nat.le_trans⟩

/-- `get_next_prayer`: `(None, None, None)` on the empty table; otherwise
materialise each entry on today's date, sort by datetime (`list.sort` is a
comparison sort; `insertionSort` produces the same sorted list up to the
order of time-ties), return the first entry whose time-of-day is strictly
later than now's, and if none remains, tomorrow's Fajr.  The scan branch
returns `prayer_datetime.strftime("%H:%M")`, the wrap branch the raw stored
string `self.prayer_times["Fajr"]`. -/
def get_next_prayer (st : AppState) (realNow : Nat) :
    Except PyError (Option (Prayer × String × Int)) :=
  match st.prayer_times with
  | none => Except.ok none
  | some tbl => do
    let now := get_current_time st realNow
    let current_time := now % 86400
    let entries ← buildEntries tbl (now / 86400) prayerOrder
    let sorted := List.insertionSort entryLE entries
    match sorted.find? (fun e => decide (current_time < e.2 % 86400)) with
    | some e => pure (some (e.1, fmtHHMM (e.2 % 86400), (e.2 : Int) - (now : Int)))
    | none =>
      match parseHHMM tbl.fajr with
      | none => Except.error PyError.valueError
      | some ft =>
        let fajr_tomorrow := (now + 86400) / 86400 * 86400 + ft.toSec
        pure (some (Prayer.Fajr, tbl.fajr, (fajr_tomorrow : Int) - (now : Int)))

/-- What a registered `schedule` job does when it runs. -/
inductive Action
  | playJob (p : Prayer)
  | refreshJob
deriving DecidableEq

/-- One job of the global `schedule` registry: the "HH:MM" at-time in
seconds after midnight, the action, and the absolute instant of the next
run. -/
structure SJob where
  tod : Nat
  act : Action
  next_run : Nat
deriving DecidableEq

/-- The next occurrence of time-of-day `tod` strictly after `now`, as the
external `schedule` library computes `next_run` both at registration and
after each run: today at `tod` if still in the future, else tomorrow. -/
def nextAt (now tod : Nat) : Nat :=
  let t := now / 86400 * 86400 + tod
  if now < t then t else t + 86400

/-- The at-time parser of `schedule.every().day.at(s)`; it raises on a
string it cannot parse.  (The library's own regex differs from `strptime`
only on inputs no claim exercises; both accept the "HH:MM" forms used
here.) -/
def schedule_at (s : String) : Except PyError Nat :=
  match parseHHMM s with
  | some t => Except.ok t.toSec
  | none => Except.error PyError.scheduleValueError

/-- The registration loop of `schedule_prayers` after `schedule.clear()`:
one daily job per prayer at its stored time string, then the daily refresh
job at "00:01" (= second 60 of the day). -/
def registerJobs (tbl : PrayerTimes) (realNow : Nat) : Except PyError (List SJob) := do
  let playJobs ← prayerOrder.mapM (fun p => do
    let tod ← schedule_at (tbl.get p)
    pure (SJob.mk tod (Action.playJob p) (nextAt realNow tod)))
  let rtod ← schedule_at "00:01"
  pure (playJobs ++ [SJob.mk rtod Action.refreshJob (nextAt realNow rtod)])

/-- `schedule_prayers`: fetch first if the table is empty (returning
`False` if that fails), then clear the registry and register all jobs.
Returns the new app state, the new registry, and the boolean result. -/
def schedule_prayers (st0 : AppState) (jobs0 : List SJob) (realNow : Nat) (resp : FetchResp) :
    Except PyError (AppState × List SJob × Bool) :=
  let fetched :=
    match st0.prayer_times with
    | none => fetch_prayer_times st0 resp
    | some _ => (st0, true)
  match fetched with
  | (st1, false) => Except.ok (st1, jobs0, false)
  | (st1, true) =>
    match st1.prayer_times with
    | none => Except.ok (st1, jobs0, false)
    | some tbl => do
      let jobs1 ← registerJobs tbl realNow
      pure (st1, jobs1, true)

/-- `fetch_and_reschedule`: refetch; on success reschedule everything, on
failure print and leave the registry alone. -/
def fetch_and_reschedule (st : AppState) (jobs : List SJob) (realNow : Nat) (resp : FetchResp) :
    Except PyError (AppState × List SJob) :=
  match fetch_prayer_times st resp with
  | (st1, true) => do
    let r ← schedule_prayers st1 jobs realNow resp
    pure (r.1, r.2.1)
  | (st1, false) => Except.ok (st1, jobs)

/-- Observable actions of a run of the main loop. -/
inductive Event
  | playedEvt (p : Prayer)
  | refreshEvt
deriving DecidableEq

/-- The whole process: the app object, the global `schedule` registry, the
real clock, and the trace of actions performed so far. -/
structure World where
  app : AppState
  jobs : List SJob
  realNow : Nat
  log : List Event
deriving DecidableEq

/-- `schedule` library: a due job runs and its `next_run` is recomputed
from the current real time. -/
def runJob (now : Nat) (j : SJob) : SJob :=
  if j.next_run ≤ now then { j with next_run := nextAt now j.tod } else j

/-- The event a job's action produces. -/
def Action.toEvent : Action → Event
  | Action.playJob p => Event.playedEvt p
  | Action.refreshJob => Event.refreshEvt

/-- `schedule.run_pending()`: run every job whose `next_run` has arrived
(recording its action), advance those jobs to their next occurrence, and if
the refresh job ran, apply `fetch_and_reschedule` (which may replace the
whole registry).  The real library runs due jobs sorted by `next_run`;
only the set of actions run matters here. -/
def run_pending (w : World) (resp : FetchResp) (_out : Prayer → PlayResult) :
    Except PyError World :=
  let fired := w.jobs.filter (fun j => j.next_run ≤ w.realNow)
  let w1 : World :=
    { w with jobs := w.jobs.map (runJob w.realNow)
             log := w.log ++ fired.map (fun j => j.act.toEvent) }
  if fired.any (fun j => j.act = Action.refreshJob) then
    match fetch_and_reschedule w1.app w1.jobs w.realNow resp with
    | Except.ok (st2, jobs2) => Except.ok { w1 with app := st2, jobs := jobs2 }
    | Except.error e => Except.error e
  else
    Except.ok w1

/-- One iteration of the `while True` loop of `run`: in mock mode call
`check_prayer_times_mock` and sleep 1 second, otherwise call
`schedule.run_pending()` and sleep 60 seconds. -/
def loopStep (w : World) (resp : FetchResp) (out : Prayer → PlayResult) :
    Except PyError World :=
  if w.app.mock_time.isSome then
    let r := check_prayer_times_mock w.app w.realNow out
    Except.ok { app := r.1, jobs := w.jobs, realNow := w.realNow + 1,
                log := w.log ++ r.2.1.map Event.playedEvt }
  else
    (run_pending w resp out).map fun w2 => { w2 with realNow := w2.realNow + 60 }

/-- Any finite run of the main loop, one fetch response and one set of
playback outcomes per iteration. -/
def runLoop : World → List (FetchResp × (Prayer → PlayResult)) → Except PyError World
  | w, [] => Except.ok w
  | w, (resp, out) :: rest => do
    let w1 ← loopStep w resp out
    runLoop w1 rest

/-! Concrete sample data, used by witnesses and counterexamples.  The table
is the scenario table of the specification. -/

/-- The specification's scenario table. -/
def tblEx : PrayerTimes := ⟨"05:30", "12:15", "15:45", "18:20", "19:45"⟩

/-- Parsed times of `tblEx`. -/
def ptEx : Prayer → TimeOfDay
  | Prayer.Fajr => ⟨5, 30⟩
  | Prayer.Dhuhr => ⟨12, 15⟩
  | Prayer.Asr => ⟨15, 45⟩
  | Prayer.Maghrib => ⟨18, 20⟩
  | Prayer.Isha => ⟨19, 45⟩

/-- A real-clock app state holding `tblEx`. -/
def stEx : AppState := ⟨some tblEx, some "01 Jan 2026", [], none, none⟩

/-- A successful Aladhan reply carrying `tblEx`. -/
def respGood : FetchResp :=
  FetchResp.reply 200 (some ⟨some "05:30", some "12:15", some "15:45", some "18:20", some "19:45", some "01 Jan 2026"⟩)

/-- A malformed 200 reply: all five timings present, date label missing. -/
def respNoDate : FetchResp :=
  FetchResp.reply 200 (some ⟨some "05:30", some "12:15", some "15:45", some "18:20", some "19:45", none⟩)

/-- A malformed 200 reply whose Fajr string is not a valid time. -/
def respBadFajr : FetchResp :=
  FetchResp.reply 200 (some ⟨some "99:99", some "12:15", some "15:45", some "18:20", some "19:45", some "01 Jan 2026"⟩)

/-- A payload with the Maghrib key missing. -/
def pjMissingMaghrib : PayloadJson :=
  ⟨some "05:30", some "12:15", some "15:45", none, some "19:45", some "01 Jan 2026"⟩

/-- A 200 reply with the Maghrib key missing. -/
def respMissingMaghrib : FetchResp :=
  FetchResp.reply 200 (some pjMissingMaghrib)

/-- A mock-mode world: simulated clock anchored at 00:00:58 (58 seconds
after midnight of day 0), real clock at 1000, table and registry in place,
nothing fired yet. -/
def w0C9 : World :=
  { app := ⟨some tblEx, some "01 Jan 2026", [], some 58, some 1000⟩
    jobs := [⟨19800, Action.playJob Prayer.Fajr, 19800⟩,
             ⟨44100, Action.playJob Prayer.Dhuhr, 44100⟩,
             ⟨56700, Action.playJob Prayer.Asr, 56700⟩,
             ⟨66000, Action.playJob Prayer.Maghrib, 66000⟩,
             ⟨71100, Action.playJob Prayer.Isha, 71100⟩,
             ⟨60, Action.refreshJob, 86460⟩]
    realNow := 1000
    log := [] }

/-- Four mock-mode loop iterations with successful fetches available. -/
def inputsC9 : List (FetchResp × (Prayer → PlayResult)) :=
  [(respGood, fun _ => PlayResult.success), (respGood, fun _ => PlayResult.success),
   (respGood, fun _ => PlayResult.success), (respGood, fun _ => PlayResult.success)]

/-- A mock-mode app state whose simulated clock sits inside the Dhuhr
minute (12:15) while Dhuhr has already fired. -/
def stC2 : AppState := ⟨some tblEx, some "01 Jan 2026", [Prayer.Dhuhr], some 44100, some 100⟩

/-- Two consecutive fire-check ticks one real second apart, both inside the
same simulated minute. -/
def inputsC2 : List (Nat × (Prayer → PlayResult)) :=
  [(100, fun _ => PlayResult.success), (101, fun _ => PlayResult.success)]

/-- An app state holding the scenario table whose previous-day fired set is
nonempty. -/
def stC3 : AppState := ⟨some tblEx, some "31 Dec 2025", [Prayer.Fajr, Prayer.Dhuhr], none, none⟩

/-- An app state holding a stale previous-day table, used to observe what a
failing refresh leaves behind. -/
def stOld : AppState :=
  ⟨some ⟨"04:00", "11:00", "14:00", "17:00", "19:00"⟩, some "31 Dec 2025", [Prayer.Fajr], none, none⟩

/-- The world `w0C9` reaches after the four iterations of `inputsC9`: only
the real clock has advanced; no job ran, nothing was logged. -/
def wC9fin : World := { w0C9 with realNow := 1004 }

/-- The refresh job of `w0C9`, due at the first 00:01 after registration. -/
def jobC9 : SJob := ⟨60, Action.refreshJob, 86460⟩

/-! ## Helper lemmas -/

theorem mem_prayerOrder (p : Prayer) : p ∈ prayerOrder := by
  cases p <;> simp [prayerOrder]

theorem parseHHMM_bounds {s : String} {t : TimeOfDay} (h : parseHHMM s = some t) :
    t.hour ≤ 23 ∧ t.minute ≤ 59 := by
  unfold parseHHMM at h
  split at h
  · split at h
    · next hb => cases h; exact hb
    · cases h
  · cases h

theorem parseHHMM_toSec_lt {s : String} {t : TimeOfDay} (h : parseHHMM s = some t) :
    t.toSec < 86400 := by
  obtain ⟨h1, h2⟩ := parseHHMM_bounds h
  unfold TimeOfDay.toSec
  omega

theorem buildEntries_ok {tbl : PrayerTimes} {pt : Prayer → TimeOfDay}
    (hp : ∀ p, parseHHMM (tbl.get p) = some (pt p)) (day : Nat) :
    ∀ l, buildEntries tbl day l = Except.ok (l.map fun p => (p, day * 86400 + (pt p).toSec))
  | [] => by simp [buildEntries]
  | p :: rest => by
    simp only [buildEntries, hp p, buildEntries_ok hp day rest, List.map]
    rfl

theorem find?_sorted_min {α : Type} {r : α → α → Prop} {p : α → Bool} {e : α} :
    ∀ {l : List α}, List.Sorted r l → l.find? p = some e →
      ∀ e₁ ∈ l, p e₁ → e₁ = e ∨ r e e₁ := by
  intro l
  induction l with
  | nil => intro _ hf; simp at hf
  | cons x xs ih =>
    intro hs hf e₁ he₁ hp₁
    by_cases hx : p x
    · rw [List.find?_cons_of_pos _ hx] at hf
      cases hf
      rcases List.mem_cons.mp he₁ with h | h
      · exact Or.inl h
      · exact Or.inr ((List.sorted_cons.mp hs).1 e₁ h)
    · rw [List.find?_cons_of_neg _ hx] at hf
      rcases List.mem_cons.mp he₁ with h | h
      · exact absurd (h ▸ hp₁) hx
      · exact ih (List.sorted_cons.mp hs).2 hf e₁ h hp₁

theorem get_next_prayer_char {st : AppState} {tbl : PrayerTimes} {pt : Prayer → TimeOfDay}
    (realNow : Nat)
    (htbl : st.prayer_times = some tbl)
    (hp : ∀ p, parseHHMM (tbl.get p) = some (pt p)) :
    ∃ p s d, get_next_prayer st realNow = Except.ok (some (p, s, d)) ∧ 0 < d ∧
      ((∃ q, get_current_time st realNow % 86400 < (pt q).toSec) →
        get_current_time st realNow % 86400 < (pt p).toSec ∧
        (∀ q, get_current_time st realNow % 86400 < (pt q).toSec → (pt p).toSec ≤ (pt q).toSec) ∧
        d = ((pt p).toSec : Int) - ((get_current_time st realNow % 86400 : Nat) : Int)) ∧
      ((∀ q, (pt q).toSec ≤ get_current_time st realNow % 86400) →
        p = Prayer.Fajr ∧ s = tbl.fajr ∧
        d = (((get_current_time st realNow / 86400 + 1) * 86400 + (pt Prayer.Fajr).toSec : Nat) : Int)
              - ((get_current_time st realNow : Nat) : Int)) := by
  have hnow : ∀ x : Nat, x = x := fun _ => rfl
  set now := get_current_time st realNow with hnowdef
  have hcday : now / 86400 * 86400 + now % 86400 = now := by omega
  have hclt : now % 86400 < 86400 := Nat.mod_lt _ (by norm_num)
  have hentries := buildEntries_ok hp (now / 86400) prayerOrder
  have hpf : parseHHMM tbl.fajr = some (pt Prayer.Fajr) := hp Prayer.Fajr
  have hmemE : ∀ a, a ∈ List.insertionSort entryLE (prayerOrder.map (fun q => (q, now / 86400 * 86400 + (pt q).toSec))) ↔
      a ∈ prayerOrder.map (fun q => (q, now / 86400 * 86400 + (pt q).toSec)) :=
    fun a => List.mem_insertionSort entryLE
  have hsorted : List.Sorted entryLE (List.insertionSort entryLE (prayerOrder.map (fun q => (q, now / 86400 * 86400 + (pt q).toSec)))) :=
    List.sorted_insertionSort entryLE _
  have hshape : ∀ a ∈ prayerOrder.map (fun q => (q, now / 86400 * 86400 + (pt q).toSec)),
      a.2 = now / 86400 * 86400 + (pt a.1).toSec := by
    intro a ha
    obtain ⟨q, hq, rfl⟩ := List.mem_map.mp ha
    rfl
  have hmod : ∀ a ∈ prayerOrder.map (fun q => (q, now / 86400 * 86400 + (pt q).toSec)),
      a.2 % 86400 = (pt a.1).toSec := by
    intro a ha
    rw [hshape a ha]
    have := parseHHMM_toSec_lt (hp a.1)
    omega
  have hgoal_eq : get_next_prayer st realNow =
      match (List.insertionSort entryLE (prayerOrder.map (fun q => (q, now / 86400 * 86400 + (pt q).toSec)))).find?
          (fun e => decide (now % 86400 < e.2 % 86400)) with
      | some e => Except.ok (some (e.1, fmtHHMM (e.2 % 86400), (e.2 : Int) - (now : Int)))
      | none => Except.ok (some (Prayer.Fajr, tbl.fajr,
          (((now + 86400) / 86400 * 86400 + (pt Prayer.Fajr).toSec : Nat) : Int) - (now : Int))) := by
    unfold get_next_prayer
    rw [htbl]
    simp only [← hnowdef, hentries, hpf, Except.bind]
    rfl
  by_cases hcase : ∃ q, now % 86400 < (pt q).toSec
  · obtain ⟨q₀, hq₀⟩ := hcase
    have hq₀E : (q₀, now / 86400 * 86400 + (pt q₀).toSec) ∈ prayerOrder.map (fun q => (q, now / 86400 * 86400 + (pt q).toSec)) :=
      List.mem_map.mpr ⟨q₀, mem_prayerOrder q₀, rfl⟩
    have hq₀S := (hmemE _).mpr hq₀E
    have hpred : (fun e : Prayer × Nat => decide (now % 86400 < e.2 % 86400)) (q₀, now / 86400 * 86400 + (pt q₀).toSec) = true := by
      simp only [decide_eq_true_eq]
      rw [hmod _ hq₀E]
      exact hq₀
    have hsome : ((List.insertionSort entryLE (prayerOrder.map (fun q => (q, now / 86400 * 86400 + (pt q).toSec)))).find?
        (fun e => decide (now % 86400 < e.2 % 86400))).isSome :=
      List.find?_isSome.mpr ⟨_, hq₀S, hpred⟩
    obtain ⟨e, hfind⟩ := Option.isSome_iff_exists.mp hsome
    have heS := List.mem_of_find?_eq_some hfind
    have heE := (hmemE e).mp heS
    have hce : now % 86400 < (pt e.1).toSec := by
      have h1 := List.find?_some hfind
      rw [decide_eq_true_eq] at h1
      rwa [hmod e heE] at h1
    have hmin : ∀ q, now % 86400 < (pt q).toSec → (pt e.1).toSec ≤ (pt q).toSec := by
      intro q hq
      have hqE : (q, now / 86400 * 86400 + (pt q).toSec) ∈ prayerOrder.map (fun q => (q, now / 86400 * 86400 + (pt q).toSec)) :=
        List.mem_map.mpr ⟨q, mem_prayerOrder q, rfl⟩
      have hqS := (hmemE _).mpr hqE
      have hpq : (fun e : Prayer × Nat => decide (now % 86400 < e.2 % 86400)) (q, now / 86400 * 86400 + (pt q).toSec) = true := by
        simp only [decide_eq_true_eq]
        rw [hmod _ hqE]
        exact hq
      rcases find?_sorted_min hsorted hfind _ hqS hpq with heq | hrel
      · rw [← heq]
      · have h2 := hshape e heE
        unfold entryLE at hrel
        omega
    refine ⟨e.1, fmtHHMM (e.2 % 86400), (e.2 : Int) - (now : Int), ?_, ?_, ?_, ?_⟩
    · rw [hgoal_eq, hfind]
    · have h2 := hshape e heE
      omega
    · intro _
      refine ⟨hce, hmin, ?_⟩
      have h2 := hshape e heE
      omega
    · intro hall
      exact absurd hq₀ (not_lt.mpr (hall q₀))
  · push_neg at hcase
    have hnone : (List.insertionSort entryLE (prayerOrder.map (fun q => (q, now / 86400 * 86400 + (pt q).toSec)))).find?
        (fun e => decide (now % 86400 < e.2 % 86400)) = none := by
      rw [List.find?_eq_none]
      intro x hx
      simp only [decide_eq_true_eq, not_lt]
      rw [hmod x ((hmemE x).mp hx)]
      exact hcase x.1
    refine ⟨Prayer.Fajr, tbl.fajr, (((now + 86400) / 86400 * 86400 + (pt Prayer.Fajr).toSec : Nat) : Int) - (now : Int), ?_, ?_, ?_, ?_⟩
    · rw [hgoal_eq, hnone]
    · have hdiv : (now + 86400) / 86400 = now / 86400 + 1 := Nat.add_div_right now (by norm_num)
      rw [hdiv]
      omega
    · rintro ⟨q, hq⟩
      exact absurd hq (not_lt.mpr (hcase q))
    · intro _
      have hdiv : (now + 86400) / 86400 = now / 86400 + 1 := Nat.add_div_right now (by norm_num)
      rw [hdiv]
      exact ⟨rfl, rfl, rfl⟩

/-! ## Claim C1 -/

/-- C1: for every valid (non-empty) prayer table and every current time,
`get_next_prayer` returns an event whose remaining duration is
non-negative and whose same-day timestamp (equivalently, its time-of-day,
as all candidates share now's calendar date) is the minimum among all
entries strictly later than now; if every entry is at or before now, it
returns Fajr — the first name in display order — with its timestamp
advanced to the next calendar day and the duration computed against that
advanced timestamp. -/
theorem claim_C1_resolve_next {st : AppState} {tbl : PrayerTimes} {pt : Prayer → TimeOfDay}
    (realNow : Nat) (htbl : st.prayer_times = some tbl)
    (hp : ∀ p, parseHHMM (tbl.get p) = some (pt p)) :
    ∃ p s d, get_next_prayer st realNow = Except.ok (some (p, s, d)) ∧ 0 ≤ d ∧
      ((∃ q, get_current_time st realNow % 86400 < (pt q).toSec) →
        get_current_time st realNow % 86400 < (pt p).toSec ∧
        (∀ q, get_current_time st realNow % 86400 < (pt q).toSec → (pt p).toSec ≤ (pt q).toSec)) ∧
      ((∀ q, (pt q).toSec ≤ get_current_time st realNow % 86400) →
        p = Prayer.Fajr ∧
        d = (((get_current_time st realNow / 86400 + 1) * 86400 + (pt Prayer.Fajr).toSec : Nat) : Int)
              - ((get_current_time st realNow : Nat) : Int)) := by
  obtain ⟨p, s, d, h1, h2, h3, h4⟩ := get_next_prayer_char realNow htbl hp
  exact ⟨p, s, d, h1, le_of_lt h2,
    fun hex => ⟨(h3 hex).1, (h3 hex).2.1⟩,
    fun hall => ⟨(h4 hall).1, (h4 hall).2.2⟩⟩

/-- C1 witness: the specification's scenario table at 12:00 noon of day 0. -/
theorem claim_C1_resolve_next_witness :
    (stEx.prayer_times = some tblEx) ∧
    (∀ p, parseHHMM (tblEx.get p) = some (ptEx p)) ∧
    (∃ p s d, get_next_prayer stEx 43200 = Except.ok (some (p, s, d)) ∧ 0 ≤ d ∧
      ((∃ q, get_current_time stEx 43200 % 86400 < (ptEx q).toSec) →
        get_current_time stEx 43200 % 86400 < (ptEx p).toSec ∧
        (∀ q, get_current_time stEx 43200 % 86400 < (ptEx q).toSec → (ptEx p).toSec ≤ (ptEx q).toSec)) ∧
      ((∀ q, (ptEx q).toSec ≤ get_current_time stEx 43200 % 86400) →
        p = Prayer.Fajr ∧
        d = (((get_current_time stEx 43200 / 86400 + 1) * 86400 + (ptEx Prayer.Fajr).toSec : Nat) : Int)
              - ((get_current_time stEx 43200 : Nat) : Int))) :=
  ⟨rfl, by intro p; cases p <;> rfl,
    claim_C1_resolve_next 43200 rfl (by intro p; cases p <;> rfl)⟩

/-! ## Claim C10 -/

/-- C10: for every non-empty, well-formed prayer table and every now, the
duration returned by `get_next_prayer` is strictly positive — never zero —
because an entry whose time-of-day is at or before now's time-of-day is
treated as already passed, and the resolver moves to a strictly later
entry or to tomorrow's Fajr. -/
theorem claim_C10_duration_pos {st : AppState} {tbl : PrayerTimes} {pt : Prayer → TimeOfDay}
    (realNow : Nat) (htbl : st.prayer_times = some tbl)
    (hp : ∀ p, parseHHMM (tbl.get p) = some (pt p)) :
    ∃ p s d, get_next_prayer st realNow = Except.ok (some (p, s, d)) ∧ 0 < d := by
  obtain ⟨p, s, d, h1, h2, _, _⟩ := get_next_prayer_char realNow htbl hp
  exact ⟨p, s, d, h1, h2⟩

/-- C10 witness: the scenario table at 20:00 of day 0, i.e. past the last
event of the day, still yields a strictly positive countdown. -/
theorem claim_C10_duration_pos_witness :
    (stEx.prayer_times = some tblEx) ∧
    (∀ p, parseHHMM (tblEx.get p) = some (ptEx p)) ∧
    (∃ p s d, get_next_prayer stEx 72000 = Except.ok (some (p, s, d)) ∧ 0 < d) :=
  ⟨rfl, by intro p; cases p <;> rfl,
    @claim_C10_duration_pos stEx tblEx ptEx 72000 rfl (by intro p; cases p <;> rfl)⟩

/-! ## Claim C6 -/

/-- C6 counterexample: with an empty prayer table, `get_next_prayer` at
noon does not fail at all — it successfully returns the sentinel triple
`(None, None, None)` (modelled `Except.ok none`), contradicting the claim
that the resolve call aborts with an `EmptyScheduleError` rather than
returning a result.  (No `EmptyScheduleError` exists anywhere in the
code.) -/
theorem claim_C6_counterexample :
    get_next_prayer ⟨none, none, [], none, none⟩ 43200 = Except.ok none := rfl

/-- C6 amended: when the prayer table has no entries, `get_next_prayer`
returns the sentinel triple `(None, None, None)` instead of raising; the
caller receives a normal (degenerate) result, not an error. -/
theorem claim_C6_empty_table (st : AppState) (realNow : Nat)
    (h : st.prayer_times = none) :
    get_next_prayer st realNow = Except.ok none := by
  unfold get_next_prayer
  rw [h]

/-- C6 witness: the freshly constructed app state with no table. -/
theorem claim_C6_empty_table_witness :
    ((⟨none, none, [], none, none⟩ : AppState).prayer_times = none) ∧
    get_next_prayer ⟨none, none, [], none, none⟩ 0 = Except.ok none :=
  ⟨rfl, claim_C6_empty_table _ 0 rfl⟩

theorem checkLoop_mono {nowStr : String} {tbl : PrayerTimes} {out : Prayer → PlayResult} :
    ∀ (l : List Prayer) (st : AppState) (x : Prayer),
      x ∈ st.played_prayers → x ∈ (checkLoop nowStr tbl out st l).1.played_prayers := by
  intro l
  induction l with
  | nil => intro st x hx; exact hx
  | cons p rest ih =>
    intro st x hx
    simp only [checkLoop]
    split
    · exact ih _ x (List.mem_append_left _ hx)
    · exact ih _ x hx

theorem checkLoop_no_replay {nowStr : String} {tbl : PrayerTimes} {out : Prayer → PlayResult} :
    ∀ (l : List Prayer) (st : AppState) (x : Prayer),
      x ∈ st.played_prayers → x ∉ (checkLoop nowStr tbl out st l).2.1 := by
  intro l
  induction l with
  | nil => intro st x _ h; exact absurd h (List.not_mem_nil x)
  | cons p rest ih =>
    intro st x hx
    simp only [checkLoop]
    split
    · next hcond =>
      intro hmem
      rcases List.mem_cons.mp hmem with h | h
      · exact hcond.2 (h ▸ hx)
      · exact ih _ x (List.mem_append_left _ hx) h
    · exact ih _ x hx

theorem checkLoop_plays_played {nowStr : String} {tbl : PrayerTimes} {out : Prayer → PlayResult} :
    ∀ (l : List Prayer) (st : AppState) (x : Prayer),
      x ∈ (checkLoop nowStr tbl out st l).2.1 → x ∈ (checkLoop nowStr tbl out st l).1.played_prayers := by
  intro l
  induction l with
  | nil => intro st x hx; exact absurd hx (List.not_mem_nil x)
  | cons p rest ih =>
    intro st x hx
    simp only [checkLoop] at hx ⊢
    split at hx
    · next hcond =>
      rcases List.mem_cons.mp hx with h | h
      · subst h
        split
        · exact checkLoop_mono rest _ x (List.mem_append_right _ (List.mem_singleton_self x))
        · next hn => exact absurd hcond hn
      · split
        · exact ih _ x h
        · next hn => exact absurd hcond hn
    · next hcond =>
      split
      · next hc2 => exact absurd hc2 hcond
      · exact ih _ x hx

theorem checkLoop_out_irrel {nowStr : String} {tbl : PrayerTimes} (out1 out2 : Prayer → PlayResult) :
    ∀ (l : List Prayer) (st : AppState),
      (checkLoop nowStr tbl out1 st l).1 = (checkLoop nowStr tbl out2 st l).1 ∧
      (checkLoop nowStr tbl out1 st l).2.1 = (checkLoop nowStr tbl out2 st l).2.1 := by
  intro l
  induction l with
  | nil => intro st; exact ⟨rfl, rfl⟩
  | cons p rest ih =>
    intro st
    simp only [checkLoop]
    split
    · exact ⟨(ih _).1, by rw [(ih _).2]⟩
    · exact ih _

theorem checkLoop_fields {nowStr : String} {tbl : PrayerTimes} {out : Prayer → PlayResult} :
    ∀ (l : List Prayer) (st : AppState),
      (checkLoop nowStr tbl out st l).1.prayer_times = st.prayer_times ∧
      (checkLoop nowStr tbl out st l).1.prayer_date = st.prayer_date ∧
      (checkLoop nowStr tbl out st l).1.mock_time = st.mock_time ∧
      (checkLoop nowStr tbl out st l).1.mock_start_time = st.mock_start_time := by
  intro l
  induction l with
  | nil => intro st; exact ⟨rfl, rfl, rfl, rfl⟩
  | cons p rest ih =>
    intro st
    simp only [checkLoop]
    split
    · exact ih _
    · exact ih _

theorem check_mock_mono (st : AppState) (realNow : Nat) (out : Prayer → PlayResult) (x : Prayer)
    (hx : x ∈ st.played_prayers) :
    x ∈ (check_prayer_times_mock st realNow out).1.played_prayers := by
  unfold check_prayer_times_mock
  split
  · exact hx
  · exact checkLoop_mono prayerOrder st x hx

theorem check_mock_no_replay (st : AppState) (realNow : Nat) (out : Prayer → PlayResult) (x : Prayer)
    (hx : x ∈ st.played_prayers) :
    x ∉ (check_prayer_times_mock st realNow out).2.1 := by
  unfold check_prayer_times_mock
  split
  · exact List.not_mem_nil x
  · exact checkLoop_no_replay prayerOrder st x hx

theorem check_mock_fields (st : AppState) (realNow : Nat) (out : Prayer → PlayResult) :
    (check_prayer_times_mock st realNow out).1.prayer_times = st.prayer_times ∧
    (check_prayer_times_mock st realNow out).1.prayer_date = st.prayer_date ∧
    (check_prayer_times_mock st realNow out).1.mock_time = st.mock_time ∧
    (check_prayer_times_mock st realNow out).1.mock_start_time = st.mock_start_time := by
  unfold check_prayer_times_mock
  split
  · exact ⟨rfl, rfl, rfl, rfl⟩
  · exact checkLoop_fields prayerOrder st

/-! ## Claim C2 -/

/-- C2: once a prayer name has transitioned to Fired (is in
`played_prayers`), evaluating the fire-check tick any number of further
times — at any clock readings and with any playback outcomes — never
invokes the playback action for that name again, and the name stays
Fired. -/
theorem claim_C2_idempotent_firing (st : AppState)
    (inputs : List (Nat × (Prayer → PlayResult))) (p : Prayer)
    (h : p ∈ st.played_prayers) :
    p ∉ (checkMany st inputs).2 ∧ p ∈ (checkMany st inputs).1.played_prayers := by
  induction inputs generalizing st with
  | nil => exact ⟨List.not_mem_nil p, h⟩
  | cons i rest ih =>
    obtain ⟨hrest, hmem⟩ := ih (check_prayer_times_mock st i.1 i.2).1
      (check_mock_mono st i.1 i.2 p h)
    refine ⟨fun hin => ?_, hmem⟩
    rcases List.mem_append.mp hin with h1 | h1
    · exact check_mock_no_replay st i.1 i.2 p h h1
    · exact hrest h1

/-- C2 witness: Dhuhr has fired; two further ticks inside the same
simulated minute do not play it again. -/
theorem claim_C2_idempotent_firing_witness :
    (Prayer.Dhuhr ∈ stC2.played_prayers) ∧
    (Prayer.Dhuhr ∉ (checkMany stC2 inputsC2).2 ∧
     Prayer.Dhuhr ∈ (checkMany stC2 inputsC2).1.played_prayers) :=
  ⟨by decide, claim_C2_idempotent_firing stC2 inputsC2 Prayer.Dhuhr (by decide)⟩

/-! ## Claim C7 -/

/-- C7: a playback failure does not affect the tick: the resulting state
and the list of prayers fired are identical whatever outcome the playback
action has (the caught error never propagates out of the tick), and every
prayer whose minute arrived ends up in `played_prayers` — the
Pending-to-Fired transition completes even when playback fails, so the
prayer is never retried later the same day. -/
theorem claim_C7_playback_failure_still_fired (st : AppState) (realNow : Nat)
    (out1 out2 : Prayer → PlayResult) :
    (check_prayer_times_mock st realNow out1).1 = (check_prayer_times_mock st realNow out2).1 ∧
    (check_prayer_times_mock st realNow out1).2.1 = (check_prayer_times_mock st realNow out2).2.1 ∧
    (∀ p ∈ (check_prayer_times_mock st realNow out1).2.1,
      p ∈ (check_prayer_times_mock st realNow out1).1.played_prayers) := by
  have hirr : (check_prayer_times_mock st realNow out1).1 = (check_prayer_times_mock st realNow out2).1 ∧
      (check_prayer_times_mock st realNow out1).2.1 = (check_prayer_times_mock st realNow out2).2.1 := by
    unfold check_prayer_times_mock
    split
    · exact ⟨rfl, rfl⟩
    · exact checkLoop_out_irrel out1 out2 prayerOrder st
  refine ⟨hirr.1, hirr.2, fun p hp => ?_⟩
  unfold check_prayer_times_mock at hp ⊢
  split at hp
  · exact absurd hp (List.not_mem_nil p)
  · exact checkLoop_plays_played prayerOrder st p hp

/-! ## Fetch-state lemmas -/

theorem fetch_preserves (st : AppState) (resp : FetchResp) :
    (fetch_prayer_times st resp).1.played_prayers = st.played_prayers ∧
    (fetch_prayer_times st resp).1.mock_time = st.mock_time ∧
    (fetch_prayer_times st resp).1.mock_start_time = st.mock_start_time := by
  unfold fetch_prayer_times
  split
  · exact ⟨rfl, rfl, rfl⟩
  · split
    · split
      · exact ⟨rfl, rfl, rfl⟩
      · split
        · split
          · exact ⟨rfl, rfl, rfl⟩
          · exact ⟨rfl, rfl, rfl⟩
        · exact ⟨rfl, rfl, rfl⟩
    · exact ⟨rfl, rfl, rfl⟩

theorem fetch_false_date (st : AppState) (resp : FetchResp)
    (h : (fetch_prayer_times st resp).2 = false) :
    (fetch_prayer_times st resp).1.prayer_date = st.prayer_date := by
  rcases resp with _ | ⟨code, json⟩
  · rfl
  · by_cases hc : code = 200
    · subst hc
      rcases json with _ | ⟨of, od, oa, om, oi, odr⟩
      · rfl
      · rcases of with _ | f <;> rcases od with _ | d <;> rcases oa with _ | a <;>
          rcases om with _ | m <;> rcases oi with _ | i <;> rcases odr with _ | dr <;>
          first
            | rfl
            | cases h
    · simp only [fetch_prayer_times, if_neg hc]

theorem fetch_false_times (st : AppState) (resp : FetchResp)
    (h : (fetch_prayer_times st resp).2 = false) :
    (fetch_prayer_times st resp).1.prayer_times = st.prayer_times ∨
    (∃ f d a m i, resp = FetchResp.reply 200 (some ⟨some f, some d, some a, some m, some i, none⟩) ∧
      (fetch_prayer_times st resp).1.prayer_times = some ⟨f, d, a, m, i⟩) := by
  rcases resp with _ | ⟨code, json⟩
  · exact Or.inl rfl
  · by_cases hc : code = 200
    · subst hc
      rcases json with _ | ⟨of, od, oa, om, oi, odr⟩
      · exact Or.inl rfl
      · rcases of with _ | f <;> rcases od with _ | d <;> rcases oa with _ | a <;>
          rcases om with _ | m <;> rcases oi with _ | i <;> rcases odr with _ | dr <;>
          first
            | exact Or.inl rfl
            | exact Or.inr ⟨_, _, _, _, _, rfl, rfl⟩
            | cases h
    · left
      simp only [fetch_prayer_times, if_neg hc]

theorem schedule_prayers_preserves (st0 : AppState) (jobs0 : List SJob) (realNow : Nat)
    (resp : FetchResp) (r : AppState × List SJob × Bool)
    (h : schedule_prayers st0 jobs0 realNow resp = Except.ok r) :
    r.1.played_prayers = st0.played_prayers ∧
    r.1.mock_time = st0.mock_time ∧
    r.1.mock_start_time = st0.mock_start_time := by
  unfold schedule_prayers at h
  rcases hpt : st0.prayer_times with _ | tbl
  · have hfp := fetch_preserves st0 resp
    rcases hfetch : fetch_prayer_times st0 resp with ⟨st1, b⟩
    rw [hfetch] at hfp
    cases b
    · simp only [hpt, hfetch] at h
      cases h
      exact hfp
    · rcases hpt1 : st1.prayer_times with _ | tbl1
      · simp only [hpt, hfetch, hpt1] at h
        cases h
        exact hfp
      · rcases hreg : registerJobs tbl1 realNow with e | jobs1
        · simp only [hpt, hfetch, hpt1, hreg] at h
          exact Except.noConfusion h
        · simp only [hpt, hfetch, hpt1, hreg] at h
          cases h
          exact hfp
  · rcases hreg : registerJobs tbl realNow with e | jobs1
    · simp only [hpt, hreg] at h
      exact Except.noConfusion h
    · simp only [hpt, hreg] at h
      cases h
      exact ⟨rfl, rfl, rfl⟩

theorem fetch_and_reschedule_preserves (st : AppState) (jobs : List SJob) (realNow : Nat)
    (resp : FetchResp) (r : AppState × List SJob)
    (h : fetch_and_reschedule st jobs realNow resp = Except.ok r) :
    r.1.played_prayers = st.played_prayers ∧
    r.1.mock_time = st.mock_time ∧
    r.1.mock_start_time = st.mock_start_time := by
  unfold fetch_and_reschedule at h
  have hfp := fetch_preserves st resp
  rcases hfetch : fetch_prayer_times st resp with ⟨st1, b⟩
  rw [hfetch] at hfp
  cases b
  · simp only [hfetch] at h
    cases h
    exact hfp
  · rcases hsch : schedule_prayers st1 jobs realNow resp with e | r1
    · simp only [hfetch, hsch] at h
      exact Except.noConfusion h
    · simp only [hfetch, hsch] at h
      cases h
      have h2 := schedule_prayers_preserves st1 jobs realNow resp r1 hsch
      exact ⟨h2.1.trans hfp.1, h2.2.1.trans hfp.2.1, h2.2.2.trans hfp.2.2⟩

/-! ## Claim C3 -/

/-- C3 counterexample: a successful daily refresh (the fetch returns True
and the schedule is rebuilt) leaves the previous day's fired set
`[Fajr, Dhuhr]` fully in place — `played_prayers` is not empty and those
names are not Pending again. -/
theorem claim_C3_counterexample :
    (fetch_prayer_times stC3 respGood).2 = true ∧
    (fetch_and_reschedule stC3 [] 1000 respGood).map (fun r => r.1.played_prayers) =
      Except.ok [Prayer.Fajr, Prayer.Dhuhr] :=
  ⟨rfl, rfl⟩

/-- C3 amended: after a daily refresh — successful or not — the fired set
`played_prayers` is exactly what it was before: the code never clears it,
so no prayer name returns to Pending at the daily refresh. -/
theorem claim_C3_no_daily_reset (st : AppState) (jobs : List SJob) (realNow : Nat)
    (resp : FetchResp) (r : AppState × List SJob)
    (h : fetch_and_reschedule st jobs realNow resp = Except.ok r) :
    r.1.played_prayers = st.played_prayers :=
  (fetch_and_reschedule_preserves st jobs realNow resp r h).1

/-- C3 witness: the concrete successful refresh of the counterexample
scenario, fed through the amended theorem. -/
theorem claim_C3_no_daily_reset_witness :
    (fetch_and_reschedule stC3 [] 1000 respGood =
      Except.ok ({ stC3 with prayer_times := some tblEx, prayer_date := some "01 Jan 2026" },
        [⟨19800, Action.playJob Prayer.Fajr, 19800⟩,
         ⟨44100, Action.playJob Prayer.Dhuhr, 44100⟩,
         ⟨56700, Action.playJob Prayer.Asr, 56700⟩,
         ⟨66000, Action.playJob Prayer.Maghrib, 66000⟩,
         ⟨71100, Action.playJob Prayer.Isha, 71100⟩,
         ⟨60, Action.refreshJob, 86460⟩])) ∧
    (({ stC3 with prayer_times := some tblEx, prayer_date := some "01 Jan 2026" } : AppState),
        ([⟨19800, Action.playJob Prayer.Fajr, 19800⟩,
          ⟨44100, Action.playJob Prayer.Dhuhr, 44100⟩,
          ⟨56700, Action.playJob Prayer.Asr, 56700⟩,
          ⟨66000, Action.playJob Prayer.Maghrib, 66000⟩,
          ⟨71100, Action.playJob Prayer.Isha, 71100⟩,
          ⟨60, Action.refreshJob, 86460⟩] : List SJob)).1.played_prayers =
      stC3.played_prayers :=
  ⟨rfl, claim_C3_no_daily_reset stC3 [] 1000 respGood _ rfl⟩

/-! ## Claim C4 -/

/-- C4 counterexample: a daily refresh whose fetch fails because the
malformed 200 payload carries all five timings but no date label does NOT
leave the prayer table as it was: `prayer_times` is overwritten with the
new timings even though the fetch reports failure. -/
theorem claim_C4_counterexample :
    (fetch_prayer_times stOld respNoDate).2 = false ∧
    (fetch_prayer_times stOld respNoDate).1.prayer_times ≠ stOld.prayer_times ∧
    (fetch_and_reschedule stOld [] 1000 respNoDate).map (fun r => r.1.prayer_times) =
      Except.ok (some tblEx) :=
  ⟨rfl, by decide, rfl⟩

/-- C4 amended: when the fetch of a daily refresh fails (non-200 status,
unreachable supplier, or malformed payload), the fired set, the date
label and the mock anchors are left exactly as they were, the schedule
registry is untouched, and the prayer table is also unchanged — except in
the one case of a 200 payload containing all five timings but no date
label, which overwrites `prayer_times` (and only `prayer_times`) before
failing. -/
theorem claim_C4_failed_refresh_state (st : AppState) (resp : FetchResp)
    (h : (fetch_prayer_times st resp).2 = false) :
    (fetch_prayer_times st resp).1.played_prayers = st.played_prayers ∧
    (fetch_prayer_times st resp).1.prayer_date = st.prayer_date ∧
    (fetch_prayer_times st resp).1.mock_time = st.mock_time ∧
    (fetch_prayer_times st resp).1.mock_start_time = st.mock_start_time ∧
    ((fetch_prayer_times st resp).1.prayer_times = st.prayer_times ∨
      (∃ f d a m i, resp = FetchResp.reply 200 (some ⟨some f, some d, some a, some m, some i, none⟩) ∧
        (fetch_prayer_times st resp).1.prayer_times = some ⟨f, d, a, m, i⟩)) ∧
    (∀ jobs realNow, fetch_and_reschedule st jobs realNow resp =
      Except.ok ((fetch_prayer_times st resp).1, jobs)) := by
  have hfp := fetch_preserves st resp
  refine ⟨hfp.1, fetch_false_date st resp h, hfp.2.1, hfp.2.2, fetch_false_times st resp h, ?_⟩
  intro jobs realNow
  have hsplit := (Prod.mk.eta (p := fetch_prayer_times st resp)).symm
  rw [h] at hsplit
  unfold fetch_and_reschedule
  rw [hsplit]

/-- C4 witness: an unreachable supplier leaves every field of the state
and the registry untouched. -/
theorem claim_C4_failed_refresh_state_witness :
    ((fetch_prayer_times stOld FetchResp.netError).2 = false) ∧
    ((fetch_prayer_times stOld FetchResp.netError).1.played_prayers = stOld.played_prayers ∧
     (fetch_prayer_times stOld FetchResp.netError).1.prayer_date = stOld.prayer_date ∧
     (fetch_prayer_times stOld FetchResp.netError).1.mock_time = stOld.mock_time ∧
     (fetch_prayer_times stOld FetchResp.netError).1.mock_start_time = stOld.mock_start_time ∧
     ((fetch_prayer_times stOld FetchResp.netError).1.prayer_times = stOld.prayer_times ∨
       (∃ f d a m i, FetchResp.netError = FetchResp.reply 200 (some ⟨some f, some d, some a, some m, some i, none⟩) ∧
         (fetch_prayer_times stOld FetchResp.netError).1.prayer_times = some ⟨f, d, a, m, i⟩)) ∧
     (∀ jobs realNow, fetch_and_reschedule stOld jobs realNow FetchResp.netError =
       Except.ok ((fetch_prayer_times stOld FetchResp.netError).1, jobs))) :=
  ⟨rfl, claim_C4_failed_refresh_state stOld FetchResp.netError rfl⟩

/-! ## Claim C5 -/

/-- C5 counterexample: the build performs no time-format validation at
all: a payload whose Fajr string is "99:99" — which does not parse as a
24-hour HH:MM — is accepted, stored verbatim, and the build reports
success; no MalformedTimeError (no such class exists) is raised. -/
theorem claim_C5_counterexample :
    parseHHMM "99:99" = none ∧
    (fetch_prayer_times stOld respBadFajr).2 = true ∧
    (fetch_prayer_times stOld respBadFajr).1.prayer_times =
      some ⟨"99:99", "12:15", "15:45", "18:20", "19:45"⟩ :=
  ⟨rfl, rfl, rfl⟩

/-- C5 amended: building the table from a 200 payload validates presence
but not format: with all five names present it succeeds whatever the
strings contain, storing them verbatim and mutating `prayer_times` and
`prayer_date` in place; with any of the five names missing it fails (a
caught KeyError, reported as a False return — there is no
IncompleteScheduleError class) and leaves the state unchanged. -/
theorem claim_C5_build_validation (st : AppState) (f d a m i dr : String) (pj : PayloadJson) :
    (fetch_prayer_times st
        (FetchResp.reply 200 (some ⟨some f, some d, some a, some m, some i, some dr⟩)) =
      ({ st with prayer_times := some ⟨f, d, a, m, i⟩, prayer_date := some dr }, true)) ∧
    ((pj.fajr = none ∨ pj.dhuhr = none ∨ pj.asr = none ∨ pj.maghrib = none ∨ pj.isha = none) →
      fetch_prayer_times st (FetchResp.reply 200 (some pj)) = (st, false)) := by
  refine ⟨rfl, fun hmiss => ?_⟩
  rcases pj with ⟨of, od, oa, om, oi, odr⟩
  rcases of with _ | f1 <;> rcases od with _ | d1 <;> rcases oa with _ | a1 <;>
    rcases om with _ | m1 <;> rcases oi with _ | i1 <;>
    first
      | rfl
      | simp at hmiss

/-- C5 witness: a complete payload with an unparseable string succeeds;
the payload missing Maghrib fails and preserves the state. -/
theorem claim_C5_build_validation_witness :
    (fetch_prayer_times stOld
        (FetchResp.reply 200 (some ⟨some "99:99", some "12:15", some "15:45", some "18:20", some "19:45", some "01 Jan 2026"⟩)) =
      ({ stOld with prayer_times := some ⟨"99:99", "12:15", "15:45", "18:20", "19:45"⟩,
                    prayer_date := some "01 Jan 2026" }, true)) ∧
    (pjMissingMaghrib.maghrib = none) ∧
    fetch_prayer_times stOld (FetchResp.reply 200 (some pjMissingMaghrib)) = (stOld, false) :=
  ⟨(claim_C5_build_validation stOld "99:99" "12:15" "15:45" "18:20" "19:45" "01 Jan 2026" pjMissingMaghrib).1,
   rfl,
   (claim_C5_build_validation stOld "" "" "" "" "" "" pjMissingMaghrib).2
     (Or.inr (Or.inr (Or.inr (Or.inl rfl))))⟩

/-! ## Main-loop lemmas -/

theorem run_pending_mocks (w : World) (resp : FetchResp) (out : Prayer → PlayResult)
    (w1 : World) (h : run_pending w resp out = Except.ok w1) :
    w1.app.mock_time = w.app.mock_time ∧ w1.app.mock_start_time = w.app.mock_start_time := by
  unfold run_pending at h
  simp only [] at h
  split at h
  · split at h
    · next st2 jobs2 hfr =>
      cases h
      have := fetch_and_reschedule_preserves _ _ _ _ _ hfr
      exact ⟨this.2.1, this.2.2⟩
    · cases h
  · cases h
    exact ⟨rfl, rfl⟩

theorem loopStep_mocks (w : World) (resp : FetchResp) (out : Prayer → PlayResult)
    (w1 : World) (h : loopStep w resp out = Except.ok w1) :
    w1.app.mock_time = w.app.mock_time ∧ w1.app.mock_start_time = w.app.mock_start_time := by
  unfold loopStep at h
  split at h
  · cases h
    have := check_mock_fields w.app w.realNow out
    exact ⟨this.2.2.1, this.2.2.2⟩
  · rcases hrp : run_pending w resp out with e | w2
    all_goals rw [hrp] at h
    · cases h
    · cases h
      exact run_pending_mocks w resp out w2 hrp

theorem runLoop_mocks : ∀ (inputs : List (FetchResp × (Prayer → PlayResult))) (w w1 : World),
    runLoop w inputs = Except.ok w1 →
    w1.app.mock_time = w.app.mock_time ∧ w1.app.mock_start_time = w.app.mock_start_time := by
  intro inputs
  induction inputs with
  | nil => intro w w1 h; cases h; exact ⟨rfl, rfl⟩
  | cons i rest ih =>
    intro w w1 h
    unfold runLoop at h
    rcases hstep : loopStep w i.1 i.2 with e | wn
    all_goals rw [hstep] at h
    · cases h
    · have h1 := loopStep_mocks w i.1 i.2 wn hstep
      have h2 := ih wn w1 h
      exact ⟨h2.1.trans h1.1, h2.2.trans h1.2⟩

theorem loopStep_mock_count (w : World) (resp : FetchResp) (out : Prayer → PlayResult)
    (hm : w.app.mock_time.isSome = true) :
    ∃ w1, loopStep w resp out = Except.ok w1 ∧ w1.app.mock_time.isSome = true ∧
      w1.log.count Event.refreshEvt = w.log.count Event.refreshEvt := by
  unfold loopStep
  simp only [hm, if_true]
  refine ⟨_, rfl, ?_, ?_⟩
  · have := (check_mock_fields w.app w.realNow out).2.2.1
    simp only [this]
    exact hm
  · simp only [List.count_append]
    have hzero : ((check_prayer_times_mock w.app w.realNow out).2.1.map Event.playedEvt).count
        Event.refreshEvt = 0 := by
      rw [List.count_eq_zero]
      intro hmem
      obtain ⟨p, _, hp⟩ := List.mem_map.mp hmem
      cases hp
    rw [hzero, Nat.add_zero]

/-! ## Claim C9 -/

/-- C9 counterexample: in simulated-clock mode the daily refresh never
triggers.  Concretely: a mock-mode world whose simulated clock starts at
00:00:58 is run for four loop iterations, crossing 00:01; the run
succeeds and its action log records zero refresh events, even though the
simulated clock passed 00:01 (and the registered refresh job sat in the
registry the whole time). -/
theorem claim_C9_counterexample :
    (runLoop w0C9 inputsC9).map (fun w => w.log.count Event.refreshEvt) = Except.ok 0 ∧
    get_current_time w0C9.app w0C9.realNow % 86400 < 60 ∧
    (runLoop w0C9 inputsC9).map (fun w => decide (60 ≤ get_current_time w.app w.realNow % 86400)) =
      Except.ok true :=
  ⟨rfl, by decide, rfl⟩

/-- C9 amended: the daily refresh is registered with the external
`schedule` library as a daily job at "00:01" (second 60 of the day), and
can only fire in real-clock mode: (a) in simulated (mock) mode every loop
iteration calls `check_prayer_times_mock` instead of
`schedule.run_pending`, so no run of the loop ever adds a refresh event
to the log; (b) in real mode a due job that fires is rescheduled to the
next occurrence of its time-of-day strictly after the current instant, so
the refresh cannot fire again before the next 00:01; (c)
`schedule_prayers` registers the refresh job with time-of-day 60 =
00:01. -/
theorem claim_C9_refresh_only_real_mode :
    (∀ (w : World) (inputs : List (FetchResp × (Prayer → PlayResult))) (w1 : World),
      w.app.mock_time.isSome = true → runLoop w inputs = Except.ok w1 →
      w1.log.count Event.refreshEvt = w.log.count Event.refreshEvt) ∧
    (∀ (now : Nat) (j : SJob), j.next_run ≤ now → j.tod < 86400 →
      now < (runJob now j).next_run ∧ (runJob now j).next_run % 86400 = j.tod) ∧
    (∀ (tbl : PrayerTimes) (realNow : Nat) (jobs : List SJob),
      registerJobs tbl realNow = Except.ok jobs →
      ∃ j ∈ jobs, j.act = Action.refreshJob ∧ j.tod = 60) := by
  refine ⟨?_, ?_, ?_⟩
  · intro w inputs
    induction inputs generalizing w with
    | nil => intro w1 hm h; cases h; rfl
    | cons i rest ih =>
      intro w1 hm h
      obtain ⟨wn, hstep, hmn, hcount⟩ := loopStep_mock_count w i.1 i.2 hm
      unfold runLoop at h
      rw [hstep] at h
      have := ih wn w1 hmn h
      omega
  · intro now j h1 h2
    unfold runJob nextAt
    rw [if_pos h1]
    dsimp only
    split
    · next hlt => exact ⟨hlt, by omega⟩
    · constructor <;> omega
  · intro tbl realNow jobs h
    unfold registerJobs at h
    rcases hm : prayerOrder.mapM (fun p => do
        let tod ← schedule_at (tbl.get p)
        pure (SJob.mk tod (Action.playJob p) (nextAt realNow tod))) with e | pl
    all_goals rw [hm] at h
    · exact Except.noConfusion h
    · have hsch : schedule_at "00:01" = Except.ok 60 := rfl
      simp only [hsch] at h
      cases h
      exact ⟨⟨60, Action.refreshJob, nextAt realNow 60⟩,
        List.mem_append_right _ (List.mem_singleton_self _), rfl, rfl⟩

/-- C9 witness: the mock-mode run of the counterexample world, the firing
of the refresh job at the first 00:01, and the registration of the
refresh job of `w0C9`. -/
theorem claim_C9_refresh_only_real_mode_witness :
    (w0C9.app.mock_time.isSome = true) ∧
    (runLoop w0C9 inputsC9 = Except.ok wC9fin) ∧
    (wC9fin.log.count Event.refreshEvt = w0C9.log.count Event.refreshEvt) ∧
    (jobC9.next_run ≤ 86460 ∧ jobC9.tod < 86400) ∧
    (86460 < (runJob 86460 jobC9).next_run ∧ (runJob 86460 jobC9).next_run % 86400 = jobC9.tod) ∧
    (registerJobs tblEx 1000 = Except.ok w0C9.jobs) ∧
    (∃ j ∈ w0C9.jobs, j.act = Action.refreshJob ∧ j.tod = 60) :=
  ⟨rfl, rfl,
   claim_C9_refresh_only_real_mode.1 w0C9 inputsC9 wC9fin rfl rfl,
   ⟨by decide, by decide⟩,
   claim_C9_refresh_only_real_mode.2.1 86460 jobC9 (by decide) (by decide),
   rfl,
   claim_C9_refresh_only_real_mode.2.2 tblEx 1000 w0C9.jobs rfl⟩

/-! ## Claim C8 -/

/-- C8: in simulated mode `get_current_time` returns exactly
`simulatedStart + (realNow - wallStartAtCapture)`: a pure function of the
anchor pair and the real instant (hence deterministic for a fixed anchor
pair and elapsed delta), advancing 1:1 with real elapsed time; the anchor
pair is set once by the constructor, and no operation performed by any
run of the main loop ever changes it. -/
theorem claim_C8_simulated_clock :
    (∀ (st : AppState) (realNow mt ms : Nat), st.mock_time = some mt →
      st.mock_start_time = some ms → ms ≤ realNow →
      ((get_current_time st realNow : Int) = (mt : Int) + ((realNow : Int) - (ms : Int)) ∧
       ∀ d : Nat, get_current_time st (realNow + d) = get_current_time st realNow + d)) ∧
    (∀ mt t0 : Nat, (mkApp (some mt) t0).mock_time = some mt ∧
      (mkApp (some mt) t0).mock_start_time = some t0) ∧
    (∀ (w : World) (inputs : List (FetchResp × (Prayer → PlayResult))) (w1 : World),
      runLoop w inputs = Except.ok w1 →
      w1.app.mock_time = w.app.mock_time ∧ w1.app.mock_start_time = w.app.mock_start_time) := by
  refine ⟨?_, ?_, ?_⟩
  · intro st realNow mt ms h1 h2 h3
    have hval : ∀ e : Nat, get_current_time st e = mt + (e - ms) := by
      intro e
      unfold get_current_time
      rw [h1, h2]
    constructor
    · rw [hval realNow]
      omega
    · intro d
      rw [hval (realNow + d), hval realNow]
      omega
  · intro mt t0
    exact ⟨rfl, rfl⟩
  · intro w inputs w1 h
    exact runLoop_mocks inputs w w1 h

/-- C8 witness: the anchor pair (58, 1000) of the sample mock world, a
reading two real seconds after capture, and the four-iteration run of the
loop, which leaves the anchors untouched. -/
theorem claim_C8_simulated_clock_witness :
    (w0C9.app.mock_time = some 58) ∧ (w0C9.app.mock_start_time = some 1000) ∧ (1000 ≤ 1002) ∧
    ((get_current_time w0C9.app 1002 : Int) = ((58 : Nat) : Int) + (((1002 : Nat) : Int) - ((1000 : Nat) : Int)) ∧
     ∀ d : Nat, get_current_time w0C9.app (1002 + d) = get_current_time w0C9.app 1002 + d) ∧
    ((mkApp (some 58) 1000).mock_time = some 58 ∧ (mkApp (some 58) 1000).mock_start_time = some 1000) ∧
    (runLoop w0C9 inputsC9 = Except.ok wC9fin) ∧
    (wC9fin.app.mock_time = w0C9.app.mock_time ∧ wC9fin.app.mock_start_time = w0C9.app.mock_start_time) :=
  ⟨rfl, rfl, by decide,
   claim_C8_simulated_clock.1 w0C9.app 1002 58 1000 rfl rfl (by decide),
   claim_C8_simulated_clock.2.1 58 1000,
   rfl,
   claim_C8_simulated_clock.2.2 w0C9 inputsC9 wC9fin rfl⟩

end AzaanSpec
